import Mathlib

/-!
Verification of the local-store core of the Castillo travel-diary app
(`src/screens/HomeScreen.tsx`): the travel-entry collection persisted under
the `travelEntries` key of the platform key-value store, and the four
interaction-state overlays (`likedPosts`, `commentedPosts`, `sharedPosts`,
`savedPosts`).

The key-value store maps string keys to stored text.  The code only ever
inspects stored text through `JSON.parse`, so a stored text is modelled by
what that inspection can see: either `Blob.corrupt raw` (text that
`JSON.parse` rejects, carrying the raw text so emptiness is observable) or
`Blob.json v` (text that parses to the JSON value `v`; serialisation by
`JSON.stringify` followed by `JSON.parse` is the identity on such values).
JS numbers are modelled as integers; no claim here inspects numeric fields.
-/

/-- A parsed JSON value.  Mirrors what `JSON.parse` can produce in the
source: null, booleans, numbers, strings, arrays and objects. -/
inductive JValue where
  | jnull : JValue
  | jbool (b : Bool) : JValue
  | jnum (n : Int) : JValue
  | jstr (s : String) : JValue
  | jarr (elems : List JValue) : JValue
  | jobj (fields : List (String × JValue)) : JValue

/-- JS truthiness of a value, as used by the source's `if` tests and the
`entry.id && entry.title && ...` filter: `null`, `false`, `0` and the empty
string are falsy; arrays and objects are always truthy. -/
def JValue.truthy : JValue → Bool
  | .jnull => false
  | .jbool b => b
  | .jnum n => n ≠ 0
  | .jstr s => s ≠ ""
  | .jarr _ => true
  | .jobj _ => true

/-- Whether a value is a JS object (a mapping), i.e. built by `jobj`. -/
def JValue.isObj : JValue → Bool
  | .jobj _ => true
  | _ => false

/-- First binding of a key in an object's field list.  JS objects have no
duplicate keys, so on faithful representations this is the unique binding. -/
def jLookup (fs : List (String × JValue)) (k : String) : Option JValue :=
  match fs with
  | [] => none
  | p :: rest => if p.1 = k then some p.2 else jLookup rest k

/-- JS property access `v[k]` / `v.k`: a binding on objects, undefined
(modelled as `none`) on other values.  Access on `null` throws in JS; call
sites that can receive `null` match it out before using `jIndex`.  String
and array index properties are not modelled (no claim reads them). -/
def jIndex (v : JValue) (k : String) : Option JValue :=
  match v with
  | .jobj fs => jLookup fs k
  | _ => none

/-- Truthiness of a property-access result, with `undefined` falsy. -/
def truthyOpt : Option JValue → Bool
  | none => false
  | some v => v.truthy

/-- Stored text under a key, as seen through `JSON.parse`. -/
inductive Blob where
  | corrupt (raw : String) : Blob
  | json (v : JValue) : Blob

/-- JS truthiness of the raw stored text (`if (entriesStr)` etc.): only the
empty string is falsy, and the empty string never parses, so parseable text
is always truthy. -/
def Blob.truthyText : Blob → Bool
  | .corrupt raw => raw ≠ ""
  | .json _ => true

/-- The platform key-value store (`AsyncStorage`): string keys to stored
text, `none` when the key is absent. -/
def Store := String → Option Blob

/-- `AsyncStorage.getItem`. -/
def Store.get (s : Store) (k : String) : Option Blob := s k

/-- `AsyncStorage.setItem`. -/
def Store.set (s : Store) (k : String) (b : Blob) : Store :=
  fun k' => if k' = k then some b else s k'

/-- The store with no keys set. -/
def emptyStore : Store := fun _ => none

/-- The validity test of `loadEntries` (HomeScreen.tsx line 63-65):
`entry.id && entry.title && entry.description && entry.image`. -/
def validRec (e : JValue) : Bool :=
  truthyOpt (jIndex e "id") && truthyOpt (jIndex e "title") &&
    truthyOpt (jIndex e "description") && truthyOpt (jIndex e "image")

/-- The `parsedEntries.filter(...)` step of `loadEntries`.  The filter
callback reads `entry.id`, which throws a `TypeError` when an element is
`null`; the error is caught by the surrounding try/catch, so the whole
filter either succeeds or fails as one step. -/
def filterValid : List JValue → Except Unit (List JValue)
  | [] => .ok []
  | e :: rest =>
    match e with
    | .jnull => .error ()
    | _ =>
      match filterValid rest with
      | .error u => .error u
      | .ok rest' => .ok (if validRec e then e :: rest' else rest')

/-- `loadEntries` (HomeScreen.tsx lines 54-80): reads the `travelEntries`
text; when absent or empty sets the in-memory list to `[]`; when present,
parses it and keeps the structurally valid records, falling back to `[]`
(log only, no user-visible error) when parsing throws, when the parsed
value is not an array (`.filter` is then not a function), or when a `null`
element makes the filter callback throw.  The function performs no store
write; the store component of the result is returned to make that
explicit.  Store I/O itself is modelled as infallible, so the outer catch
(`Alert('Failed to load entries')`) is unreachable here. -/
def loadEntries (s : Store) : List JValue × Store :=
  match s.get "travelEntries" with
  | none => ([], s)
  | some b =>
    if b.truthyText then
      match b with
      | .corrupt _ => ([], s)
      | .json v =>
        match v with
        | .jarr elems =>
          match filterValid elems with
          | .ok es => (es, s)
          | .error _ => ([], s)
        | _ => ([], s)
    else ([], s)

/-- The overlay kinds of `toggleAction` (`'like' | 'comment' | 'share' |
'save'`). -/
inductive ActionType where
  | like : ActionType
  | comment : ActionType
  | share : ActionType
  | save : ActionType
deriving DecidableEq

/-- The storage key each overlay kind persists under. -/
def storageKey : ActionType → String
  | .like => "likedPosts"
  | .comment => "commentedPosts"
  | .share => "sharedPosts"
  | .save => "savedPosts"

/-- The four in-memory overlay states of the home screen.  Each is a JS
value: initialised to the empty object, and replaced wholesale by whatever
`JSON.parse` yields in `loadActionStates`. -/
structure ActionStates where
  likedPosts : JValue
  commentedPosts : JValue
  sharedPosts : JValue
  savedPosts : JValue

/-- `useState(\x7b\x7d)` initial values for the four overlays. -/
def initialActionStates : ActionStates :=
  ⟨.jobj [], .jobj [], .jobj [], .jobj []⟩

/-- The in-memory overlay state for a kind. -/
def ActionStates.overlay (st : ActionStates) : ActionType → JValue
  | .like => st.likedPosts
  | .comment => st.commentedPosts
  | .share => st.sharedPosts
  | .save => st.savedPosts

/-- One `if (raw) setXxx(JSON.parse(raw))` step of `loadActionStates`:
absent or empty text leaves the current state, parseable text replaces it,
and unparseable text throws (propagated to the shared catch). -/
def applyOverlayText (cur : JValue) (b : Option Blob) : Except Unit JValue :=
  match b with
  | none => .ok cur
  | some bl =>
    if bl.truthyText then
      match bl with
      | .corrupt _ => .error ()
      | .json v => .ok v
    else .ok cur

/-- `loadActionStates` (HomeScreen.tsx lines 82-98): reads the four overlay
texts, then applies them to the state in source order (liked, commented,
shared, saved) inside a single try/catch, so a `JSON.parse` failure aborts
the remaining assignments while keeping the ones already made; the error is
only logged, never surfaced. -/
def loadActionStates (s : Store) : ActionStates :=
  let st := initialActionStates
  match applyOverlayText st.likedPosts (s.get "likedPosts") with
  | .error _ => st
  | .ok l =>
    let st := { st with likedPosts := l }
    match applyOverlayText st.commentedPosts (s.get "commentedPosts") with
    | .error _ => st
    | .ok c =>
      let st := { st with commentedPosts := c }
      match applyOverlayText st.sharedPosts (s.get "sharedPosts") with
      | .error _ => st
      | .ok sh =>
        let st := { st with sharedPosts := sh }
        match applyOverlayText st.savedPosts (s.get "savedPosts") with
        | .error _ => st
        | .ok sv => { st with savedPosts := sv }

/-- Strict equality `entry.id !== id` is false exactly when the property is
the string `id`; this decides the complement (the property IS that
string). -/
def idIsStr (e : JValue) (id : String) : Bool :=
  match jIndex e "id" with
  | some (.jstr s) => s = id
  | _ => false

/-- The `entries.filter(entry => entry.id !== id)` step of `removeEntry`.
The callback's property access throws on a `null` element; the error is
caught by the surrounding try/catch. -/
def filterRemove (id : String) : List JValue → Except Unit (List JValue)
  | [] => .ok []
  | e :: rest =>
    match e with
    | .jnull => .error ()
    | _ =>
      match filterRemove id rest with
      | .error u => .error u
      | .ok rest' => .ok (if idIsStr e id then rest' else e :: rest')

/-- The confirmed-deletion action of `removeEntry` (HomeScreen.tsx lines
109-117, the `onPress` body after the user confirms): filters the
in-memory entry list by id, writes the serialised result back under
`travelEntries`, and installs it as the new in-memory list.  On an error
(only possible from the filter callback in this model, store I/O being
infallible) the catch alerts and leaves both components unchanged. -/
def removeEntry (id : String) (entries : List JValue) (s : Store) :
    List JValue × Store :=
  match filterRemove id entries with
  | .error _ => (entries, s)
  | .ok updated =>
    (updated, s.set "travelEntries" (Blob.json (.jarr updated)))

/-- Replace the first binding of a key in a field list, appending a new
binding when the key is absent (JS objects keep insertion order and update
an existing property in place). -/
def setKey : List (String × JValue) → String → JValue →
    List (String × JValue)
  | [], k, nv => [(k, nv)]
  | p :: rest, k, nv =>
    if p.1 = k then (k, nv) :: rest else p :: setKey rest k nv

/-- JS object-literal spread update `\x7b...cur, [id]: v\x7d`, for the
states `toggleAction` builds: on an object, the binding for `id` is
replaced in place when present and appended otherwise; on other non-null
primitives the spread contributes no own properties, leaving just the new
binding.  (Index properties contributed by spreading a string or an array
are not modelled; `null` states are matched out by the caller, where the
property read `cur[id]` throws first.) -/
def spreadSet (cur : JValue) (id : String) (v : JValue) : JValue :=
  match cur with
  | .jobj fs => .jobj (setKey fs id v)
  | _ => .jobj [(id, v)]

/-- `toggleAction` (HomeScreen.tsx lines 124-156): reads the in-memory
overlay for the kind, builds `\x7b...cur, [id]: !cur[id]\x7d`, installs it
in memory and writes it (serialised) under the kind's storage key.  When
the current state is `null` the property read `cur[id]` throws before any
assignment; the catch only logs, so state and store are unchanged. -/
def toggleAction (id : String) (type : ActionType) (st : ActionStates)
    (s : Store) : ActionStates × Store :=
  match st.overlay type with
  | .jnull => (st, s)
  | cur =>
    let newState := spreadSet cur id (.jbool (!truthyOpt (jIndex cur id)))
    let st' :=
      match type with
      | .like => { st with likedPosts := newState }
      | .comment => { st with commentedPosts := newState }
      | .share => { st with sharedPosts := newState }
      | .save => { st with savedPosts := newState }
    (st', s.set (storageKey type) (Blob.json newState))

/-- The read-append-write core of `saveEntry` (HomeScreen.tsx lines
656-660), acting on an already-constructed entry: reads the `travelEntries`
text, parses it when truthy (an unparseable text throws), spreads the
parsed value into an array literal before the new entry (a parsed string
spreads into its characters; other non-array values are not iterable and
throw), and writes the serialised result back.  Errors propagate to
`saveEntry`'s catch. -/
def appendEntry (e : JValue) (s : Store) : Except Unit (List JValue × Store) :=
  match s.get "travelEntries" with
  | none =>
    .ok ([e], s.set "travelEntries" (Blob.json (.jarr [e])))
  | some b =>
    if b.truthyText then
      match b with
      | .corrupt _ => .error ()
      | .json v =>
        match v with
        | .jarr xs =>
          .ok (xs ++ [e], s.set "travelEntries" (Blob.json (.jarr (xs ++ [e]))))
        | .jstr str =>
          let chars := str.toList.map (fun c => JValue.jstr (String.mk [c]))
          .ok (chars ++ [e],
            s.set "travelEntries" (Blob.json (.jarr (chars ++ [e]))))
        | _ => .error ()
    else .ok ([e], s.set "travelEntries" (Blob.json (.jarr [e])))

/-- The capture-form fields `saveEntry` reads: the picked image URI (`null`
when none), the raw title and description, and the location/address data
assembled earlier in the flow. -/
structure FormState where
  image : Option String
  title : String
  description : String
  location : JValue
  address : String

/-- How `saveEntry` terminates: the `Missing Information` validation alert,
the `Failed to save entry` alert from the catch, or a successful write
followed by the notification and navigation back to the feed. -/
inductive SaveOutcome where
  | validationError : SaveOutcome
  | storageError : SaveOutcome
  | saved : SaveOutcome

/-- Drop leading whitespace characters from a character list. -/
def trimLeftChars : List Char → List Char
  | [] => []
  | c :: rest => if c.isWhitespace then trimLeftChars rest else c :: rest

/-- JS `String.prototype.trim`: strip leading and trailing whitespace
(approximated by `Char.isWhitespace`; the claims only involve whether the
result is empty, which agrees on ordinary text). -/
def jsTrim (s : String) : String :=
  ⟨(trimLeftChars (trimLeftChars s.data).reverse).reverse⟩

/-- The entry object literal of `saveEntry` (HomeScreen.tsx lines 646-654):
`id` is the current time rendered as a string, title and description are
trimmed, and `date` is the ISO rendering of the same moment (passed in
opaquely as `nowIso`). -/
def mkNewEntry (fs : FormState) (img : String) (now : Nat) (nowIso : String) :
    JValue :=
  .jobj [("id", .jstr (toString now)), ("title", .jstr (jsTrim fs.title)),
    ("description", .jstr (jsTrim fs.description)), ("image", .jstr img),
    ("location", fs.location), ("address", .jstr fs.address),
    ("date", .jstr nowIso)]

/-- `saveEntry` (HomeScreen.tsx lines 638-688): when the image is absent or
falsy, or the trimmed title or description is empty, alerts `Missing
Information` and returns at once — no entry is constructed, nothing is
written, and the form fields (returned unchanged in the middle component;
the body never assigns them) are kept.  Otherwise it builds the new entry
and runs the read-append-write cycle; a thrown error reaches the catch,
which alerts `Failed to save entry` and leaves the store as it was. -/
def saveEntry (fs : FormState) (now : Nat) (nowIso : String) (s : Store) :
    SaveOutcome × FormState × Store :=
  match fs.image with
  | none => (.validationError, fs, s)
  | some img =>
    if img = "" || jsTrim fs.title = "" || jsTrim fs.description = "" then
      (.validationError, fs, s)
    else
      match appendEntry (mkNewEntry fs img now nowIso) s with
      | .error _ => (.storageError, fs, s)
      | .ok (_, s') => (.saved, fs, s')

/-- Whether `JSON.parse` on this stored text would throw: only present,
non-empty, unparseable text is ever handed to `JSON.parse` by the loaders
(absent and empty text are skipped by their truthiness guards). -/
def parseFails : Option Blob → Bool
  | some (.corrupt r) => r ≠ ""
  | _ => false

/-- What one `if (raw) setXxx(JSON.parse(raw))` step leaves in a state that
started at the empty object: the parsed value when the text parses, the
empty object otherwise. -/
def expectedOverlay : Option Blob → JValue
  | none => .jobj []
  | some (.corrupt _) => .jobj []
  | some (.json v) => v

/-- `x` occurs in `l` exactly once. -/
def appearsExactlyOnce (x : JValue) (l : List JValue) : Prop :=
  ∃ l1 l2, l = l1 ++ x :: l2 ∧ x ∉ l1 ∧ x ∉ l2

/-- A store holding a single key. -/
def singletonStore (k : String) (b : Blob) : Store :=
  Store.set emptyStore k b

/-- A structurally valid persisted entry used in concrete scenarios. -/
def sampleEntry : JValue :=
  .jobj [("id", .jstr "1"), ("title", .jstr "Beach"),
    ("description", .jstr "Nice"), ("image", .jstr "file://a.jpg")]

/-- A second structurally valid entry with a different id. -/
def sampleEntry2 : JValue :=
  .jobj [("id", .jstr "2"), ("title", .jstr "Hills"),
    ("description", .jstr "Green"), ("image", .jstr "file://b.jpg")]

/-- A store whose collection key holds a corrupt blob and whose
commented-overlay key holds a valid non-empty mapping. -/
def c8badStore : Store := fun k =>
  if k = "likedPosts" then some (.corrupt "x")
  else if k = "commentedPosts" then some (.json (.jobj [("1", .jbool true)]))
  else none

/-- The same store with the corrupt liked-overlay key removed. -/
def c8okStore : Store := fun k =>
  if k = "commentedPosts" then some (.json (.jobj [("1", .jbool true)]))
  else none

/-- A fully filled capture form. -/
def sampleForm : FormState :=
  ⟨some "file://a.jpg", "Beach", "Nice", .jnull, ""⟩

section Lemmas

theorem Store.get_set_same (s : Store) (k : String) (b : Blob) :
    (s.set k b).get k = some b := by
  simp [Store.get, Store.set]

theorem Store.get_set_other (s : Store) (k k' : String) (b : Blob)
    (h : k' ≠ k) : (s.set k b).get k' = s.get k' := by
  simp [Store.get, Store.set, h]

theorem Store.set_self (s : Store) (k : String) (b : Blob)
    (h : s.get k = some b) : s.set k b = s := by
  funext k'
  by_cases hk : k' = k
  · subst hk; simp [Store.set, ← h, Store.get]
  · simp [Store.set, hk]

theorem filterValid_cons_nonnull (x : JValue) (rest : List JValue)
    (hx : x ≠ JValue.jnull) :
    filterValid (x :: rest) =
      match filterValid rest with
      | .error u => .error u
      | .ok rest' => .ok (if validRec x then x :: rest' else rest') := by
  cases x <;> first | exact absurd rfl hx | rfl

theorem filterValid_ok_eq (xs : List JValue) (es : List JValue)
    (h : filterValid xs = .ok es) : es = xs.filter validRec := by
  induction xs generalizing es with
  | nil =>
    simp only [filterValid, Except.ok.injEq] at h
    simp [← h]
  | cons x rest ih =>
    by_cases hx : x = JValue.jnull
    · subst hx; simp [filterValid] at h
    · rw [filterValid_cons_nonnull x rest hx] at h
      cases hr : filterValid rest with
      | error u => rw [hr] at h; exact absurd h (by simp)
      | ok rest' =>
        rw [hr] at h
        simp only [Except.ok.injEq] at h
        rw [← h, ih rest' hr, List.filter_cons]

theorem filterValid_ok_of_no_null (xs : List JValue)
    (h : ∀ x ∈ xs, x ≠ JValue.jnull) :
    filterValid xs = .ok (xs.filter validRec) := by
  induction xs with
  | nil => rfl
  | cons x rest ih =>
    have hx : x ≠ JValue.jnull := h x (List.mem_cons_self x rest)
    rw [filterValid_cons_nonnull x rest hx,
      ih (fun y hy => h y (List.mem_cons_of_mem x hy)), List.filter_cons]

theorem filterRemove_cons_nonnull (id : String) (x : JValue)
    (rest : List JValue) (hx : x ≠ JValue.jnull) :
    filterRemove id (x :: rest) =
      match filterRemove id rest with
      | .error u => .error u
      | .ok rest' => .ok (if idIsStr x id then rest' else x :: rest') := by
  cases x <;> first | exact absurd rfl hx | rfl

theorem filterRemove_ok_of_no_null (id : String) (xs : List JValue)
    (h : ∀ x ∈ xs, x ≠ JValue.jnull) :
    filterRemove id xs = .ok (xs.filter (fun e => !idIsStr e id)) := by
  induction xs with
  | nil => rfl
  | cons x rest ih =>
    have hx : x ≠ JValue.jnull := h x (List.mem_cons_self x rest)
    rw [filterRemove_cons_nonnull id x rest hx,
      ih (fun y hy => h y (List.mem_cons_of_mem x hy)), List.filter_cons]
    by_cases hi : idIsStr x id <;> simp [hi]

theorem jLookup_setKey (fs : List (String × JValue)) (k : String)
    (v : JValue) : jLookup (setKey fs k v) k = some v := by
  induction fs with
  | nil => simp [setKey, jLookup]
  | cons p rest ih =>
    by_cases hp : p.1 = k
    · simp [setKey, hp, jLookup]
    · simp [setKey, hp, jLookup, ih]

theorem toggleAction_overlay_obj (id : String) (k : ActionType)
    (st : ActionStates) (s : Store) (fs : List (String × JValue))
    (hfs : st.overlay k = .jobj fs) :
    ((toggleAction id k st s).1).overlay k
      = spreadSet (.jobj fs) id (.jbool (!truthyOpt (jLookup fs id))) ∧
    (toggleAction id k st s).2
      = s.set (storageKey k)
          (Blob.json (spreadSet (.jobj fs) id
            (.jbool (!truthyOpt (jLookup fs id))))) := by
  cases k <;>
    simp_all [toggleAction, ActionStates.overlay, jIndex]

theorem applyOverlayText_fail (b : Option Blob)
    (h : parseFails b = true) :
    applyOverlayText (.jobj []) b = .error () := by
  match b with
  | none => simp [parseFails] at h
  | some (.corrupt r) =>
    simp only [parseFails, decide_eq_true_eq] at h
    simp [applyOverlayText, Blob.truthyText, h]
  | some (.json v) => simp [parseFails] at h

theorem applyOverlayText_ok (b : Option Blob)
    (h : parseFails b = false) :
    applyOverlayText (.jobj []) b = .ok (expectedOverlay b) := by
  match b with
  | none => rfl
  | some (.corrupt r) =>
    simp only [parseFails, decide_eq_false_iff_not, not_not] at h
    simp [applyOverlayText, Blob.truthyText, expectedOverlay, h]
  | some (.json v) => rfl

theorem expectedOverlay_of_parseFails (b : Option Blob)
    (h : parseFails b = true) : expectedOverlay b = .jobj [] := by
  match b with
  | none => rfl
  | some (.corrupt r) => rfl
  | some (.json v) => simp [parseFails] at h

end Lemmas

/-- C1: when the stored `travelEntries` blob parses as a list, `loadEntries`
returns only records from that list whose `id`, `title`, `description` and
`image` properties are all truthy (for string fields: non-empty), and every
record failing that test is silently dropped from the result. -/
theorem c1_load_filter_invariant (s : Store) (xs : List JValue)
    (h : s.get "travelEntries" = some (Blob.json (.jarr xs))) :
    (∀ e ∈ (loadEntries s).1, e ∈ xs ∧ validRec e = true) ∧
    (∀ e ∈ xs, validRec e = false → e ∉ (loadEntries s).1) := by
  have hload : loadEntries s
      = match filterValid xs with
        | .ok es => (es, s)
        | .error _ => ([], s) := by
    unfold loadEntries
    rw [h]
    rfl
  cases hfv : filterValid xs with
  | error u =>
    rw [hfv] at hload
    simp [hload]
  | ok es =>
    rw [hfv] at hload
    have hes := filterValid_ok_eq xs es hfv
    subst hes
    rw [hload]
    constructor
    · intro e he
      have := List.mem_filter.mp he
      exact ⟨this.1, this.2⟩
    · intro e _ hbad hmem
      have := (List.mem_filter.mp hmem).2
      rw [hbad] at this
      exact absurd this (by simp)

/-- C1 witness: on a concrete store whose list holds one valid and one
invalid record, the invariant holds. -/
theorem c1_load_filter_invariant_witness :
    (∀ e ∈ (loadEntries (singletonStore "travelEntries"
        (Blob.json (.jarr [sampleEntry, .jobj [("id", .jstr "")]])))).1,
      e ∈ [sampleEntry, .jobj [("id", .jstr "")]] ∧ validRec e = true) ∧
    (∀ e ∈ [sampleEntry, JValue.jobj [("id", .jstr "")]],
      validRec e = false →
        e ∉ (loadEntries (singletonStore "travelEntries"
          (Blob.json (.jarr [sampleEntry, .jobj [("id", .jstr "")]])))).1) :=
  c1_load_filter_invariant _ _ rfl

/-- C2 counterexample: on the empty store, `loadEntries` returns the empty
list but performs no initialising write — the `travelEntries` key is still
absent afterwards, contradicting the claimed side effect of writing an
empty serialised sequence. -/
theorem c2_counterexample :
    (loadEntries emptyStore).1 = [] ∧
    ((loadEntries emptyStore).2).get "travelEntries" = none :=
  ⟨rfl, rfl⟩

/-- C2 (amended): when the collection key is absent, `loadEntries` returns
the empty list and leaves the store entirely unchanged (no initialisation
write). -/
theorem c2_absent_key_no_write (s : Store)
    (h : s.get "travelEntries" = none) :
    loadEntries s = ([], s) := by
  unfold loadEntries
  rw [h]

/-- C2 witness: the amended statement at the empty store. -/
theorem c2_absent_key_no_write_witness :
    loadEntries emptyStore = ([], emptyStore) :=
  c2_absent_key_no_write emptyStore rfl

/-- C7: when the collection key holds undeserializable text, `loadEntries`
returns the empty list and leaves the store unchanged; the parse failure is
caught internally (log only), so no error reaches the caller. -/
theorem c7_corrupt_load_empty (s : Store) (r : String)
    (h : s.get "travelEntries" = some (Blob.corrupt r)) :
    loadEntries s = ([], s) := by
  unfold loadEntries
  rw [h]
  by_cases hr : r = "" <;> simp [Blob.truthyText, hr]

/-- C7 witness: a concrete store holding corrupt collection text. -/
theorem c7_corrupt_load_empty_witness :
    loadEntries (singletonStore "travelEntries" (Blob.corrupt "not json"))
      = ([], singletonStore "travelEntries" (Blob.corrupt "not json")) :=
  c7_corrupt_load_empty _ "not json" rfl

/-- C4: with no `null` element in the in-memory list, deleting an id twice
yields the same resulting sequence both times and the second call is a
complete no-op (same list, same store); neither filter pass errors, and
when no entry carries the id the first call already leaves the sequence
unchanged. -/
theorem c4_remove_idempotent (id : String) (entries : List JValue)
    (s : Store) (h : JValue.jnull ∉ entries) :
    removeEntry id (removeEntry id entries s).1 (removeEntry id entries s).2
      = removeEntry id entries s ∧
    (filterRemove id entries).isOk = true ∧
    (filterRemove id (removeEntry id entries s).1).isOk = true ∧
    ((∀ e ∈ entries, idIsStr e id = false) →
      (removeEntry id entries s).1 = entries) := by
  have hno : ∀ x ∈ entries, x ≠ JValue.jnull := fun x hx hxe => h (hxe ▸ hx)
  have h1 := filterRemove_ok_of_no_null id entries hno
  have hr1 : removeEntry id entries s
      = (entries.filter (fun e => !idIsStr e id),
         s.set "travelEntries"
           (Blob.json (.jarr (entries.filter (fun e => !idIsStr e id))))) := by
    unfold removeEntry
    rw [h1]
  have hno2 : ∀ x ∈ entries.filter (fun e => !idIsStr e id),
      x ≠ JValue.jnull := fun x hx => hno x (List.mem_of_mem_filter hx)
  have h2 := filterRemove_ok_of_no_null id _ hno2
  have hfix : (entries.filter (fun e => !idIsStr e id)).filter
      (fun e => !idIsStr e id) = entries.filter (fun e => !idIsStr e id) := by
    simp [List.filter_filter]
  refine ⟨?_, by rw [h1]; rfl, by rw [hr1]; simp only; rw [h2]; rfl, ?_⟩
  · rw [hr1]
    unfold removeEntry
    rw [h2, hfix]
    have hself : (s.set "travelEntries"
        (Blob.json (.jarr (entries.filter (fun e => !idIsStr e id))))).set
          "travelEntries"
          (Blob.json (.jarr (entries.filter (fun e => !idIsStr e id))))
        = s.set "travelEntries"
            (Blob.json (.jarr (entries.filter (fun e => !idIsStr e id)))) :=
      Store.set_self _ _ _ (Store.get_set_same _ _ _)
    dsimp only
    rw [hself]
  · intro hall
    rw [hr1]
    simp only
    exact List.filter_eq_self.mpr (fun e he => by simp [hall e he])

/-- C4 witness: deleting id `"1"` from a list holding only the id-`"2"`
entry — the id is absent, both calls are error-free no-ops. -/
theorem c4_remove_idempotent_witness :
    removeEntry "1" (removeEntry "1" [sampleEntry2] emptyStore).1
        (removeEntry "1" [sampleEntry2] emptyStore).2
      = removeEntry "1" [sampleEntry2] emptyStore ∧
    (filterRemove "1" [sampleEntry2]).isOk = true ∧
    (filterRemove "1" (removeEntry "1" [sampleEntry2] emptyStore).1).isOk
      = true ∧
    ((∀ e ∈ [sampleEntry2], idIsStr e "1" = false) →
      (removeEntry "1" [sampleEntry2] emptyStore).1 = [sampleEntry2]) :=
  c4_remove_idempotent "1" [sampleEntry2] emptyStore
    (by simp [sampleEntry2])

/-- C5: on an object overlay state, toggling the same id twice returns the
entry's boolean (the truthiness of the id's binding, absent bindings
reading as false) to its original value, and a first toggle at an absent
binding sets it to `true`. -/
theorem c5_toggle_involution (k : ActionType) (id : String)
    (st : ActionStates) (s : Store) (h : (st.overlay k).isObj = true) :
    truthyOpt (jIndex (((toggleAction id k (toggleAction id k st s).1
        (toggleAction id k st s).2).1).overlay k) id)
      = truthyOpt (jIndex (st.overlay k) id) ∧
    (jIndex (st.overlay k) id = none →
      jIndex (((toggleAction id k st s).1).overlay k) id
        = some (JValue.jbool true)) := by
  obtain ⟨fs, hfs⟩ : ∃ fs, st.overlay k = .jobj fs := by
    cases hk : st.overlay k <;> simp [JValue.isObj, hk] at h ⊢
  have t1 := toggleAction_overlay_obj id k st s fs hfs
  have hov1 : ((toggleAction id k st s).1).overlay k
      = .jobj (setKey fs id (.jbool (!truthyOpt (jLookup fs id)))) := by
    rw [t1.1]; rfl
  have t2 := toggleAction_overlay_obj id k (toggleAction id k st s).1
    (toggleAction id k st s).2 _ hov1
  constructor
  · rw [t2.1]
    have hl1 : jLookup (setKey fs id (.jbool (!truthyOpt (jLookup fs id)))) id
        = some (.jbool (!truthyOpt (jLookup fs id))) := jLookup_setKey _ _ _
    rw [hfs]
    simp only [spreadSet, jIndex, hl1, jLookup_setKey, truthyOpt,
      JValue.truthy, Bool.not_not]
  · intro habs
    rw [hfs] at habs
    simp only [jIndex] at habs
    rw [hov1]
    simp only [jIndex, habs, jLookup_setKey, truthyOpt, Bool.not_false]

/-- C5 witness: toggling id `"1"` twice on the initial (empty-object)
overlays restores its false reading, and one toggle on the absent binding
stores `true`. -/
theorem c5_toggle_involution_witness :
    truthyOpt (jIndex (((toggleAction "1" .like
        (toggleAction "1" .like initialActionStates emptyStore).1
        (toggleAction "1" .like initialActionStates emptyStore).2).1).overlay
          .like) "1")
      = truthyOpt (jIndex (initialActionStates.overlay .like) "1") ∧
    (jIndex (initialActionStates.overlay .like) "1" = none →
      jIndex (((toggleAction "1" .like initialActionStates
          emptyStore).1).overlay .like) "1" = some (JValue.jbool true)) :=
  c5_toggle_involution .like "1" initialActionStates emptyStore rfl

/-- C6: toggling one overlay kind writes only that kind's storage key: the
text persisted under any other kind's key is unchanged. -/
theorem c6_toggle_independence (k1 k2 : ActionType) (id : String)
    (st : ActionStates) (s : Store) (h : k1 ≠ k2) :
    ((toggleAction id k1 st s).2).get (storageKey k2)
      = s.get (storageKey k2) := by
  have hk : storageKey k2 ≠ storageKey k1 := by
    cases k1 <;> cases k2 <;>
      first | exact absurd rfl h | decide
  cases hcur : st.overlay k1 with
  | jnull =>
    cases k1 <;>
      simp_all [toggleAction, ActionStates.overlay]
  | jbool b =>
    cases k1 <;>
      simp_all [toggleAction, ActionStates.overlay, Store.get, Store.set, hk]
  | jnum n =>
    cases k1 <;>
      simp_all [toggleAction, ActionStates.overlay, Store.get, Store.set, hk]
  | jstr str =>
    cases k1 <;>
      simp_all [toggleAction, ActionStates.overlay, Store.get, Store.set, hk]
  | jarr l =>
    cases k1 <;>
      simp_all [toggleAction, ActionStates.overlay, Store.get, Store.set, hk]
  | jobj fs =>
    cases k1 <;>
      simp_all [toggleAction, ActionStates.overlay, Store.get, Store.set, hk]

/-- C6 witness: a like-toggle leaves the commented overlay's stored text
unchanged. -/
theorem c6_toggle_independence_witness :
    ((toggleAction "1" .like initialActionStates emptyStore).2).get
        (storageKey .comment)
      = emptyStore.get (storageKey .comment) :=
  c6_toggle_independence .like .comment "1" initialActionStates emptyStore
    (by decide)

/-- C8 counterexample: with the liked-overlay key corrupt and the
commented-overlay key holding the valid mapping `\x7b"1": true\x7d`, the
commented overlay loads as the empty object, while with the liked key
absent the very same commented text loads as the stored mapping — the
result for one kind depends on the contents of another kind's key,
refuting the claimed independence (and, at this input, the claim that a
kind with valid stored text loads it). -/
theorem c8_counterexample :
    c8badStore.get "commentedPosts"
      = some (Blob.json (.jobj [("1", .jbool true)])) ∧
    (loadActionStates c8badStore).commentedPosts = .jobj [] ∧
    (loadActionStates c8okStore).commentedPosts
      = .jobj [("1", .jbool true)] ∧
    (loadActionStates c8badStore).commentedPosts
      ≠ (loadActionStates c8okStore).commentedPosts := by
  refine ⟨rfl, rfl, rfl, fun h => ?_⟩
  rw [show (loadActionStates c8badStore).commentedPosts = JValue.jobj []
      from rfl] at h
  rw [show (loadActionStates c8okStore).commentedPosts
      = JValue.jobj [("1", JValue.jbool true)] from rfl] at h
  simp at h

/-- C8 (amended): each overlay kind loads, with no error surfaced, the
parse of its own stored text (empty object when its key is absent, its
text is empty, or its text is unparseable) — provided every kind processed
before it in the shared try/catch (source order: liked, commented, shared,
saved) has text that does not throw in `JSON.parse`; a parse failure in an
earlier kind leaves this kind (and all later ones) at the empty object
even when its own stored text is valid. -/
theorem c8_overlay_load (s : Store) :
    (loadActionStates s).likedPosts = expectedOverlay (s.get "likedPosts") ∧
    (parseFails (s.get "likedPosts") = false →
      (loadActionStates s).commentedPosts
        = expectedOverlay (s.get "commentedPosts")) ∧
    (parseFails (s.get "likedPosts") = false →
      parseFails (s.get "commentedPosts") = false →
      (loadActionStates s).sharedPosts
        = expectedOverlay (s.get "sharedPosts")) ∧
    (parseFails (s.get "likedPosts") = false →
      parseFails (s.get "commentedPosts") = false →
      parseFails (s.get "sharedPosts") = false →
      (loadActionStates s).savedPosts
        = expectedOverlay (s.get "savedPosts")) := by
  unfold loadActionStates
  dsimp only [initialActionStates]
  cases hp1 : parseFails (s.get "likedPosts") with
  | true =>
    rw [applyOverlayText_fail _ hp1]
    refine ⟨?_, ?_, ?_, ?_⟩
    · dsimp only
      rw [expectedOverlay_of_parseFails _ hp1]
    · intro hc; exact Bool.noConfusion hc
    · intro hc; exact Bool.noConfusion hc
    · intro hc; exact Bool.noConfusion hc
  | false =>
    rw [applyOverlayText_ok _ hp1]
    dsimp only
    cases hp2 : parseFails (s.get "commentedPosts") with
    | true =>
      rw [applyOverlayText_fail _ hp2]
      refine ⟨rfl, ?_, ?_, ?_⟩
      · intro _
        dsimp only
        rw [expectedOverlay_of_parseFails _ hp2]
      · intro _ hc; exact Bool.noConfusion hc
      · intro _ hc; exact Bool.noConfusion hc
    | false =>
      rw [applyOverlayText_ok _ hp2]
      dsimp only
      cases hp3 : parseFails (s.get "sharedPosts") with
      | true =>
        rw [applyOverlayText_fail _ hp3]
        refine ⟨rfl, fun _ => rfl, ?_, ?_⟩
        · intro _ _
          dsimp only
          rw [expectedOverlay_of_parseFails _ hp3]
        · intro _ _ hc; exact Bool.noConfusion hc
      | false =>
        rw [applyOverlayText_ok _ hp3]
        dsimp only
        cases hp4 : parseFails (s.get "savedPosts") with
        | true =>
          rw [applyOverlayText_fail _ hp4]
          refine ⟨rfl, fun _ => rfl, fun _ _ => rfl, ?_⟩
          intro _ _ _
          dsimp only
          rw [expectedOverlay_of_parseFails _ hp4]
        | false =>
          rw [applyOverlayText_ok _ hp4]
          exact ⟨rfl, fun _ => rfl, fun _ _ => rfl, fun _ _ _ => rfl⟩

/-- C8 witness: on the store holding only a valid commented mapping, the
amended statement loads that mapping for the commented kind. -/
theorem c8_overlay_load_witness :
    (loadActionStates c8okStore).commentedPosts
      = expectedOverlay (c8okStore.get "commentedPosts") :=
  (c8_overlay_load c8okStore).2.1 rfl

/-- C3 counterexample: appending a valid entry to a store whose collection
already holds that same entry persists it a second time, and the following
load returns it twice — not exactly once. -/
theorem c3_counterexample :
    appendEntry sampleEntry
        (singletonStore "travelEntries" (Blob.json (.jarr [sampleEntry])))
      = .ok ([sampleEntry, sampleEntry],
          Store.set
            (singletonStore "travelEntries" (Blob.json (.jarr [sampleEntry])))
            "travelEntries"
            (Blob.json (.jarr [sampleEntry, sampleEntry]))) ∧
    (loadEntries (Store.set
        (singletonStore "travelEntries" (Blob.json (.jarr [sampleEntry])))
        "travelEntries"
        (Blob.json (.jarr [sampleEntry, sampleEntry])))).1
      = [sampleEntry, sampleEntry] ∧
    ¬ appearsExactlyOnce sampleEntry [sampleEntry, sampleEntry] := by
  refine ⟨rfl, rfl, ?_⟩
  rintro ⟨l1, l2, heq, h1, h2⟩
  cases l1 with
  | nil =>
    simp only [List.nil_append, List.cons.injEq] at heq
    rw [← heq.2] at h2
    exact h2 (by simp)
  | cons a t =>
    simp only [List.cons_append, List.cons.injEq] at heq
    exact h1 (List.mem_cons.mpr (Or.inl heq.1))

/-- C3 (amended): for a valid entry `e` and a store whose collection parses
as a list that has no `null` element and does not already contain `e`,
`appendEntry e` writes the collection extended with `e`, and the following
load returns the valid records followed by `e` — so `e` occurs exactly
once, preserved byte for byte (it is the identical value). -/
theorem c3_append_roundtrip (e : JValue) (s : Store) (xs : List JValue)
    (hs : s.get "travelEntries" = some (Blob.json (.jarr xs)))
    (hv : validRec e = true)
    (hn : ∀ x ∈ xs, x ≠ JValue.jnull)
    (he : e ∉ xs) :
    appendEntry e s
      = .ok (xs ++ [e],
          s.set "travelEntries" (Blob.json (.jarr (xs ++ [e])))) ∧
    (loadEntries (s.set "travelEntries"
        (Blob.json (.jarr (xs ++ [e]))))).1
      = xs.filter validRec ++ [e] ∧
    appearsExactlyOnce e
      ((loadEntries (s.set "travelEntries"
        (Blob.json (.jarr (xs ++ [e]))))).1) := by
  have hen : e ≠ JValue.jnull := by
    intro hh
    rw [hh] at hv
    simp [validRec, jIndex, truthyOpt] at hv
  have hn' : ∀ x ∈ xs ++ [e], x ≠ JValue.jnull := by
    intro x hx
    rcases List.mem_append.mp hx with hx1 | hx2
    · exact hn x hx1
    · rw [List.mem_singleton.mp hx2]
      exact hen
  have hget := Store.get_set_same s "travelEntries"
    (Blob.json (.jarr (xs ++ [e])))
  have hfv := filterValid_ok_of_no_null (xs ++ [e]) hn'
  have hsplit : (xs ++ [e]).filter validRec = xs.filter validRec ++ [e] := by
    rw [List.filter_append]
    simp [hv]
  have hnotin : e ∉ xs.filter validRec :=
    fun hmem => he (List.mem_of_mem_filter hmem)
  have hload : loadEntries (s.set "travelEntries"
      (Blob.json (.jarr (xs ++ [e]))))
      = (xs.filter validRec ++ [e],
         s.set "travelEntries" (Blob.json (.jarr (xs ++ [e])))) := by
    unfold loadEntries
    rw [show (s.set "travelEntries"
        (Blob.json (.jarr (xs ++ [e])))).get "travelEntries"
      = some (Blob.json (.jarr (xs ++ [e]))) from hget]
    simp only [Blob.truthyText, if_true]
    rw [hfv, hsplit]
  refine ⟨?_, by rw [hload], ?_⟩
  · unfold appendEntry
    rw [hs]
    rfl
  · rw [hload]
    exact ⟨xs.filter validRec, [], rfl, hnotin, by simp⟩

/-- C3 witness: appending a fresh valid entry to a store holding an empty
collection, then loading, returns exactly that entry. -/
theorem c3_append_roundtrip_witness :
    appendEntry sampleEntry
        (singletonStore "travelEntries" (Blob.json (.jarr [])))
      = .ok ([sampleEntry],
          Store.set (singletonStore "travelEntries" (Blob.json (.jarr [])))
            "travelEntries" (Blob.json (.jarr [sampleEntry]))) ∧
    (loadEntries (Store.set
        (singletonStore "travelEntries" (Blob.json (.jarr [])))
        "travelEntries" (Blob.json (.jarr [sampleEntry])))).1
      = [sampleEntry] ∧
    appearsExactlyOnce sampleEntry
      ((loadEntries (Store.set
        (singletonStore "travelEntries" (Blob.json (.jarr [])))
        "travelEntries" (Blob.json (.jarr [sampleEntry])))).1) :=
  c3_append_roundtrip sampleEntry
    (singletonStore "travelEntries" (Blob.json (.jarr []))) []
    rfl rfl (by simp) (by simp)

/-- C9: whenever the picked image is absent or the trimmed title or
description is empty, `saveEntry` reports the validation error and stops:
no entry is constructed, the store is not written, and the form fields are
returned untouched. -/
theorem c9_save_validation (fs : FormState) (now : Nat) (nowIso : String)
    (s : Store)
    (h : fs.image = none ∨ jsTrim fs.title = "" ∨ jsTrim fs.description = "") :
    saveEntry fs now nowIso s = (.validationError, fs, s) := by
  unfold saveEntry
  cases himg : fs.image with
  | none => rfl
  | some img =>
    rcases h with h | h | h
    · rw [himg] at h
      exact Option.noConfusion h
    · simp [h]
    · simp [h]

/-- C9 witness: a form with no picked image is rejected with everything
untouched. -/
theorem c9_save_validation_witness :
    saveEntry ⟨none, "Beach", "Nice", .jnull, ""⟩ 0 "iso" emptyStore
      = (.validationError, ⟨none, "Beach", "Nice", .jnull, ""⟩, emptyStore) :=
  c9_save_validation ⟨none, "Beach", "Nice", .jnull, ""⟩ 0 "iso" emptyStore
    (Or.inl rfl)

/-- C10 counterexample: with the collection key holding the empty string —
text `JSON.parse` rejects — a valid save does NOT fail: the falsy-text
guard treats it like an absent key, so the save succeeds and replaces the
blob with the one-entry collection. -/
theorem c10_counterexample :
    (saveEntry sampleForm 7 "2025-01-01T00:00:00.000Z"
        (singletonStore "travelEntries" (Blob.corrupt ""))).1
      = SaveOutcome.saved ∧
    ((saveEntry sampleForm 7 "2025-01-01T00:00:00.000Z"
        (singletonStore "travelEntries" (Blob.corrupt ""))).2.2).get
        "travelEntries"
      = some (Blob.json (.jarr [mkNewEntry sampleForm "file://a.jpg" 7
          "2025-01-01T00:00:00.000Z"])) :=
  ⟨rfl, rfl⟩

/-- C10 (amended): when the collection key holds non-empty undeserializable
text, a fully valid save reaches `JSON.parse`, which throws: the user sees
the storage-error alert, the store is left unchanged — the corrupt blob
survives and the new entry is not persisted. -/
theorem c10_corrupt_append_fails (fs : FormState) (img : String) (now : Nat)
    (nowIso : String) (s : Store) (r : String)
    (himg : fs.image = some img) (h1 : img ≠ "")
    (h2 : jsTrim fs.title ≠ "") (h3 : jsTrim fs.description ≠ "")
    (hs : s.get "travelEntries" = some (Blob.corrupt r)) (hr : r ≠ "") :
    saveEntry fs now nowIso s = (.storageError, fs, s) := by
  have happ : appendEntry (mkNewEntry fs img now nowIso) s = .error () := by
    unfold appendEntry
    rw [hs]
    simp [Blob.truthyText, hr]
  unfold saveEntry
  rw [himg]
  simp [h1, h2, h3, happ]

/-- C10 witness: a valid save against a store holding non-empty corrupt
collection text errors out and changes nothing. -/
theorem c10_corrupt_append_fails_witness :
    saveEntry sampleForm 7 "iso"
        (singletonStore "travelEntries" (Blob.corrupt "oops"))
      = (.storageError, sampleForm,
         singletonStore "travelEntries" (Blob.corrupt "oops")) :=
  c10_corrupt_append_fails sampleForm "file://a.jpg" 7 "iso"
    (singletonStore "travelEntries" (Blob.corrupt "oops")) "oops"
    rfl (by decide) (by decide) (by decide) rfl (by decide)
